import Mathlib

/-!
Verification of the quickwit datetime format module
(`quickwit-datetime/src/date_time_format.rs`): a shallow embedding of the
format-string compiler (strptime-style and Java-style front-ends), the
parse/format engine, the year-inference heuristic and the input/output
format selector enums, together with theorems checking the natural-language
specification against the code.

External collaborators (the `time` crate's `Parsed`/format-item machinery
and the strptime grammar of `time_fmt`) are modelled from the contract the
specification assigns them; everything else is translated from the Rust
source.
-/

namespace DateTimeFormat

/-- The twelve months, mirroring `time::Month` (discriminants 1..=12). -/
inductive Month where
  | january | february | march | april | may | june
  | july | august | september | october | november | december
  deriving DecidableEq, Repr

/-- The numeric discriminant of a month (`Month as u8` in Rust): 1 to 12. -/
def Month.num : Month → Nat
  | .january => 1
  | .february => 2
  | .march => 3
  | .april => 4
  | .may => 5
  | .june => 6
  | .july => 7
  | .august => 8
  | .september => 9
  | .october => 10
  | .november => 11
  | .december => 12

/-- Embedding of `infer_year` (date_time_format.rs:415-427): infers the year
of a parsed datetime, skewing towards the past year. -/
def infer_year (parsed_month_opt : Option Month) (this_month : Month)
    (this_year : Int) : Int :=
  match parsed_month_opt with
  | none => this_year
  | some parsed_month =>
    if parsed_month.num > this_month.num + 3 then this_year - 1 else this_year

/-- Padding attribute of a numeric component, mirroring
`time::format_description::modifier::Padding` (only `Zero` and `None` are
produced by this module's builders). -/
inductive Padding where
  | zero | space | none
  deriving DecidableEq, Repr

/-- Year representation, mirroring `time::...::YearRepr`. -/
inductive YearRepr where
  | full | lastTwo
  deriving DecidableEq, Repr

/-- A compiled format instruction, mirroring the fragment of
`time::format_description::OwnedFormatItem` that this module produces:
literal byte runs (modelled as character lists) and the typed temporal
components built by the two compiler front-ends. -/
inductive OwnedFormatItem where
  | literal (bytes : List Char)
  | year (padding : Padding) (repr : YearRepr)
  | month (padding : Padding)
  | day (padding : Padding)
  | hour (padding : Padding)
  | minute (padding : Padding)
  | second (padding : Padding)
  | offset
  deriving DecidableEq, Repr

/-- Embedding of `build_day_item` (date_time_format.rs:44-52): zero-padded
iff the matched pattern has two characters. -/
def build_day_item (ptn : List Char) : Option OwnedFormatItem :=
  some (.day (if ptn.length = 2 then .zero else .none))

/-- Embedding of `build_month_item` (date_time_format.rs:54-62). -/
def build_month_item (ptn : List Char) : Option OwnedFormatItem :=
  some (.month (if ptn.length = 2 then .zero else .none))

/-- Embedding of `build_year_item` (date_time_format.rs:64-73): full year
representation for a four-character match, last-two otherwise; the padding
stays at the `time` crate's default (`Zero`). -/
def build_year_item (ptn : List Char) : Option OwnedFormatItem :=
  some (.year .zero (if ptn.length = 4 then .full else .lastTwo))

/-- The single-quote character, written via its code point. -/
def quoteChar : Char := Char.ofNat 39

/-- Decides whether the first list is a prefix of the second. -/
def startsWithList : List Char → List Char → Bool
  | [], _ => true
  | _ :: _, [] => false
  | a :: ps, b :: ss => a = b && startsWithList ps ss

/-- Scans for the closing single quote: returns the run of characters before
the first quote and the remainder after it (the behaviour of the regex
`'[^']+'` once the opening quote has been consumed). -/
def splitQuoted : List Char → Option (List Char × List Char)
  | [] => none
  | c :: rest =>
    if c = quoteChar then some ([], rest)
    else
      match splitQuoted rest with
      | some (inner, rem) => some (c :: inner, rem)
      | none => none

/-- The ordered rule table of `java_date_format_tokenizer`
(date_time_format.rs:77-92), fused into one matcher: given the remaining
suffix, returns the instruction produced by the first matching rule (`none`
for "matched but no instruction" never arises here since every builder
returns an item) together with the matched length, or `none` when no rule
matches.  The six rules, in declaration order: `yy(yy)?`, `MM?`, `dd?`,
`''`, `'[^']+'`, `[^\w\[\]{}]` (word characters modelled over the ASCII
fragment). -/
def javaDateFormatRules (s : List Char) : Option (Option OwnedFormatItem × Nat) :=
  match s with
  | [] => none
  | c :: rest =>
    if c = 'y' then
      if startsWithList ['y', 'y', 'y'] rest then (build_year_item ['y','y','y','y']).map (·, 4)
      else if startsWithList ['y'] rest then (build_year_item ['y','y']).map (·, 2)
      else none
    else if c = 'M' then
      if startsWithList ['M'] rest then (build_month_item ['M','M']).map (·, 2)
      else (build_month_item ['M']).map (·, 1)
    else if c = 'd' then
      if startsWithList ['d'] rest then (build_day_item ['d','d']).map (·, 2)
      else (build_day_item ['d']).map (·, 1)
    else if c = quoteChar then
      if startsWithList [quoteChar] rest then some (some (.literal [quoteChar]), 2)
      else
        match splitQuoted rest with
        | some (inner, _) => some (some (.literal inner), inner.length + 2)
        | none => some (some (.literal [quoteChar]), 1)
    else if c.isAlphanum || c = '_' || c = '[' || c = ']' || c = '{' || c = '}' then none
    else some (some (.literal [c]), 1)

/-- Modelled from the spec: the generic `RegexTokenizer` loop (§4.1), whose
implementation lives in the repository outside the provided sources — at the
current offset it tries the rules in declaration order against the remaining
suffix, emits the matched rule's instruction, advances by the matched length,
and fails with the current offset when no rule matches.  The fuel argument
makes the strictly-advancing recursion structural; any fuel at least the
suffix length gives the loop's behaviour. -/
def regexTokenizerGo : Nat → List Char → Nat → Except Nat (List OwnedFormatItem)
  | _, [], _ => .ok []
  | 0, _ :: _, pos => .error pos
  | fuel + 1, c :: rest, pos =>
    match javaDateFormatRules (c :: rest) with
    | none => .error pos
    | some (item?, len) =>
      (regexTokenizerGo fuel ((c :: rest).drop len) (pos + len)).map
        (fun items => item?.toList ++ items)

/-- The tokenizer started at a given offset with sufficient fuel. -/
def tokenizeFrom (s : List Char) (pos : Nat) : Except Nat (List OwnedFormatItem) :=
  regexTokenizerGo s.length s pos

/-- Embedding of `RegexTokenizer::tokenize` applied to the Java rule table: tokenizes a
whole pattern starting at offset 0. -/
def java_tokenize (s : List Char) : Except Nat (List OwnedFormatItem) :=
  tokenizeFrom s 0

/-- Decides whether `pat` occurs as a contiguous
subsequence of `s` (the behaviour of Rust's `str::contains` with a string
pattern). -/
def containsSub (pat : List Char) : List Char → Bool
  | [] => startsWithList pat []
  | c :: rest => startsWithList pat (c :: rest) || containsSub pat rest

/-- Models `str::to_lowercase` on the ASCII fragment relevant to this
module (all table entries and markers are ASCII). -/
def rustLowercase (s : String) : String := ⟨s.data.map Char.toLower⟩

/-- Embedding of `STRFTIME_FORMAT_MARKERS` (date_time_format.rs:230-234):
the 36 recognized two-character strftime markers. -/
def STRFTIME_FORMAT_MARKERS : List String :=
  ["%a", "%A", "%b", "%B", "%c", "%C", "%d", "%D", "%e", "%f", "%F", "%h",
   "%H", "%I", "%j", "%k", "%l", "%m", "%M", "%n", "%p", "%P", "%r", "%R",
   "%S", "%t", "%T", "%U", "%w", "%W", "%x", "%X", "%y", "%Y", "%z", "%Z"]

/-- Embedding of `is_strftime_formatting` (date_time_format.rs:237-241):
does the format string contain any recognized strftime marker? -/
def is_strftime_formatting (format_str : String) : Bool :=
  STRFTIME_FORMAT_MARKERS.any (fun marker => containsSub marker.data format_str.data)

/-- Modelled from the spec: the external strptime grammar
(`time_fmt::parse::time_format_item::parse_to_format_item`, §6 of the
spec), restricted to the markers exercised here — `%Y %y %m %d %H %M %S %z
%%` compile to the corresponding components, any other character is a
literal, and an unsupported marker is a compile error. -/
def strptimeComponent : Char → Option OwnedFormatItem
  | 'Y' => some (.year .zero .full)
  | 'y' => some (.year .zero .lastTwo)
  | 'm' => some (.month .zero)
  | 'd' => some (.day .zero)
  | 'H' => some (.hour .zero)
  | 'M' => some (.minute .zero)
  | 'S' => some (.second .zero)
  | 'z' => some .offset
  | '%' => some (.literal ['%'])
  | _ => none

/-- Modelled from the spec: compilation of a strptime pattern into format
instructions by the external grammar (§6). -/
def strptime_items : List Char → Except String (List OwnedFormatItem)
  | [] => .ok []
  | '%' :: c :: rest =>
    match strptimeComponent c with
    | some item => (strptime_items rest).map (fun items => item :: items)
    | none => .error ("unsupported marker %" ++ String.singleton c)
  | ['%'] => .error "dangling %"
  | c :: rest => (strptime_items rest).map (fun items => .literal [c] :: items)

/-- Embedding of `StrptimeParser` (date_time_format.rs:119-124): the format
string kept for diagnostics and equality, the offset-expected flag, and the
compiled instruction sequence. -/
structure StrptimeParser where
  strptime_format : String
  with_timezone : Bool
  items : List OwnedFormatItem
  deriving DecidableEq, Repr

/-- Embedding of `StrptimeParser::from_strptime`
(date_time_format.rs:174-185): compiles via the external grammar and sets
the offset-expected flag iff the lowercased pattern contains `%z`. -/
def StrptimeParser.from_strptime (strptime_format : String) :
    Except String StrptimeParser :=
  match strptime_items strptime_format.data with
  | .error err =>
    .error ("invalid strptime format `" ++ strptime_format ++ "`: " ++ err)
  | .ok items =>
    .ok ⟨strptime_format,
         containsSub ['%', 'z'] (rustLowercase strptime_format).data,
         items⟩

/-- The single-quote character as a one-character string. -/
def quoteStr : String := String.singleton quoteChar

/-- Embedding of `resolve_java_datetime_format_alias`
(date_time_format.rs:98-116): the fixed alias table; unknown names pass
through unchanged. -/
def resolve_java_datetime_format_alias (java_datetime_format : String) : String :=
  if java_datetime_format = "date_optional_time" then
    "yyyy-MM-dd" ++ quoteStr ++ "T" ++ quoteStr ++ "HH:mm:ss.SSSZ"
  else if java_datetime_format = "strict_date_optional_time" then
    "yyyy-MM-dd" ++ quoteStr ++ "T" ++ quoteStr ++ "HH:mm:ss.SSSZ"
  else if java_datetime_format = "strict_date_optional_time_nanos" then
    "yyyy-MM-dd" ++ quoteStr ++ "T" ++ quoteStr ++ "HH:mm:ss.SSSSSSZ"
  else if java_datetime_format = "basic_date" then
    "yyyyMMdd"
  else
    java_datetime_format

/-- Embedding of `StrptimeParser::from_java_datetime_format`
(date_time_format.rs:187-202): resolves aliases, tokenizes with the Java
rule table, stores the resolved pattern string, and never expects an
offset. -/
def StrptimeParser.from_java_datetime_format (java_datetime_format : String) :
    Except String StrptimeParser :=
  let resolved := resolve_java_datetime_format_alias java_datetime_format
  match java_tokenize resolved.data with
  | .error pos =>
    .error ("failed to parse date format `" ++ java_datetime_format ++
      "`. Pattern at pos " ++ toString pos ++ " is not recognized.")
  | .ok items => .ok ⟨resolved, false, items⟩

/-- Modelled from the spec: the transient `ParsedFields` structure filled by
the external engine (`time::parsing::Parsed`) while interpreting the
instruction sequence (§3 of the spec). -/
structure Parsed where
  year : Option Int
  year_last_two : Option Nat
  month : Option Month
  day : Option Nat
  hour_24 : Option Nat
  hour_12 : Option Nat
  hour_12_is_pm : Option Bool
  minute : Option Nat
  second : Option Nat
  offset_minutes : Option Int
  deriving DecidableEq, Repr

/-- Embedding of `Parsed::new()`: every field unset. -/
def Parsed.init : Parsed :=
  ⟨none, none, none, none, none, none, none, none, none, none⟩

def Parsed.withYear (p : Parsed) (v : Int) : Parsed :=
  ⟨some v, p.year_last_two, p.month, p.day, p.hour_24, p.hour_12,
   p.hour_12_is_pm, p.minute, p.second, p.offset_minutes⟩

def Parsed.withYearLastTwo (p : Parsed) (v : Nat) : Parsed :=
  ⟨p.year, some v, p.month, p.day, p.hour_24, p.hour_12,
   p.hour_12_is_pm, p.minute, p.second, p.offset_minutes⟩

def Parsed.withMonth (p : Parsed) (v : Month) : Parsed :=
  ⟨p.year, p.year_last_two, some v, p.day, p.hour_24, p.hour_12,
   p.hour_12_is_pm, p.minute, p.second, p.offset_minutes⟩

def Parsed.withDay (p : Parsed) (v : Nat) : Parsed :=
  ⟨p.year, p.year_last_two, p.month, some v, p.hour_24, p.hour_12,
   p.hour_12_is_pm, p.minute, p.second, p.offset_minutes⟩

def Parsed.withHour24 (p : Parsed) (v : Nat) : Parsed :=
  ⟨p.year, p.year_last_two, p.month, p.day, some v, p.hour_12,
   p.hour_12_is_pm, p.minute, p.second, p.offset_minutes⟩

def Parsed.withMinute (p : Parsed) (v : Nat) : Parsed :=
  ⟨p.year, p.year_last_two, p.month, p.day, p.hour_24, p.hour_12,
   p.hour_12_is_pm, some v, p.second, p.offset_minutes⟩

def Parsed.withSecond (p : Parsed) (v : Nat) : Parsed :=
  ⟨p.year, p.year_last_two, p.month, p.day, p.hour_24, p.hour_12,
   p.hour_12_is_pm, p.minute, some v, p.offset_minutes⟩

def Parsed.withOffsetMinutes (p : Parsed) (v : Int) : Parsed :=
  ⟨p.year, p.year_last_two, p.month, p.day, p.hour_24, p.hour_12,
   p.hour_12_is_pm, p.minute, p.second, some v⟩

/-- Numeric value of a digit run. -/
def digitsToNat (ds : List Char) : Nat :=
  ds.foldl (fun acc c => acc * 10 + (c.toNat - 48)) 0

/-- Parses exactly `n` digits (a zero-padded numeric component). -/
def parseFixedDigits (n : Nat) (s : List Char) : Option (Nat × List Char) :=
  let ds := s.take n
  if ds.length = n && ds.all Char.isDigit then some (digitsToNat ds, s.drop n)
  else none

/-- Parses one to `maxW` digits greedily (an unpadded numeric component). -/
def parseFlexDigits (maxW : Nat) (s : List Char) : Option (Nat × List Char) :=
  let ds := (s.take maxW).takeWhile Char.isDigit
  if ds.length = 0 then none else some (digitsToNat ds, s.drop ds.length)

/-- Digit parsing dispatched on the component's padding attribute. -/
def parseNum (pad : Padding) (width : Nat) (s : List Char) :
    Option (Nat × List Char) :=
  match pad with
  | .zero => parseFixedDigits width s
  | _ => parseFlexDigits width s

/-- The month with the given discriminant (`Month::try_from(u8)`). -/
def monthFromNum : Nat → Option Month
  | 1 => some .january
  | 2 => some .february
  | 3 => some .march
  | 4 => some .april
  | 5 => some .may
  | 6 => some .june
  | 7 => some .july
  | 8 => some .august
  | 9 => some .september
  | 10 => some .october
  | 11 => some .november
  | 12 => some .december
  | _ => none

/-- Modelled from the spec: interpreting one format instruction against the
input text (§4.4 naive path; the external engine's
`Parsed::parse_items` handles one item at a time, range-checking each
component). -/
def parseOneItem (p : Parsed) (s : List Char) :
    OwnedFormatItem → Option (Parsed × List Char)
  | .literal l =>
    if startsWithList l s then some (p, s.drop l.length) else none
  | .year pad rep =>
    match rep with
    | .full =>
      match parseNum pad 4 s with
      | some (v, rest) => some (p.withYear (Int.ofNat v), rest)
      | none => none
    | .lastTwo =>
      match parseNum pad 2 s with
      | some (v, rest) =>
        if v ≤ 99 then some (p.withYearLastTwo v, rest) else none
      | none => none
  | .month pad =>
    match parseNum pad 2 s with
    | some (v, rest) =>
      match monthFromNum v with
      | some m => some (p.withMonth m, rest)
      | none => none
    | none => none
  | .day pad =>
    match parseNum pad 2 s with
    | some (v, rest) =>
      if 1 ≤ v && v ≤ 31 then some (p.withDay v, rest) else none
    | none => none
  | .hour pad =>
    match parseNum pad 2 s with
    | some (v, rest) => if v ≤ 23 then some (p.withHour24 v, rest) else none
    | none => none
  | .minute pad =>
    match parseNum pad 2 s with
    | some (v, rest) => if v ≤ 59 then some (p.withMinute v, rest) else none
    | none => none
  | .second pad =>
    match parseNum pad 2 s with
    | some (v, rest) => if v ≤ 59 then some (p.withSecond v, rest) else none
    | none => none
  | .offset =>
    match s with
    | c :: rest =>
      if c = '+' || c = '-' then
        match parseFixedDigits 4 rest with
        | some (v, rest2) =>
          let minutes : Int := Int.ofNat ((v / 100) * 60 + v % 100)
          some (p.withOffsetMinutes (if c = '-' then -minutes else minutes), rest2)
        | none => none
      else none
    | [] => none

/-- Modelled from the spec: `Parsed::parse_items` — interprets the
instruction sequence left to right, returning the populated fields and the
unconsumed remainder of the text, or `none` when a required component or
literal does not match. -/
def parse_items (p : Parsed) (s : List Char) :
    List OwnedFormatItem → Option (Parsed × List Char)
  | [] => some (p, s)
  | item :: rest =>
    match parseOneItem p s item with
    | some (p2, s2) => parse_items p2 s2 rest
    | none => none

/-- Embedding of `time::PrimitiveDateTime` as its calendar fields. -/
structure PrimitiveDateTime where
  year : Int
  month : Month
  day : Nat
  hour : Nat
  minute : Nat
  second : Nat
  deriving DecidableEq, Repr

def is_leap_year (y : Int) : Bool :=
  y % 4 = 0 && (y % 100 ≠ 0 || y % 400 = 0)

def days_in_month (y : Int) (m : Month) : Nat :=
  match m with
  | .february => if is_leap_year y then 29 else 28
  | .april => 30
  | .june => 30
  | .september => 30
  | .november => 30
  | _ => 31

/-- Modelled from the spec: `Parsed::try_into::<PrimitiveDateTime>` —
builds the instant from the now-complete fields, failing when a field is
missing or the calendar date does not exist (§4.4 step 4). -/
def parsed_try_into (p : Parsed) : Option PrimitiveDateTime :=
  match p.year, p.month, p.day, p.hour_24, p.minute, p.second with
  | some y, some m, some d, some h, some mi, some se =>
    if 1 ≤ d ∧ d ≤ days_in_month y m then some ⟨y, m, d, h, mi, se⟩ else none
  | _, _, _, _, _, _ => none

/-- The error produced when the text leaves unconsumed characters: it names
both the input text and the original pattern string
(date_time_format.rs:136-140). -/
def mismatch_error (date_time_str strptime_format : String) : String :=
  "datetime string `" ++ date_time_str ++
    "` does not match strptime format `" ++ strptime_format ++ "`"

/-- Embedding of `StrptimeParser::parse_primitive_date_time`
(date_time_format.rs:130-158).  The current date, read from the clock in
the source, is passed in as `now_month`/`now_year`. -/
def StrptimeParser.parse_primitive_date_time (self : StrptimeParser)
    (date_time_str : String) (now_month : Month) (now_year : Int) :
    Except String PrimitiveDateTime :=
  match parse_items Parsed.init date_time_str.data self.items with
  | none => .error "parse_items failed"
  | some (parsed, remaining) =>
    if remaining ≠ [] then
      .error (mismatch_error date_time_str self.strptime_format)
    else
      let parsed1 :=
        if parsed.hour_24 = none ∧
            ¬(parsed.hour_12.isSome ∧ parsed.hour_12_is_pm.isSome) then
          ((parsed.withHour24 0).withMinute 0).withSecond 0
        else parsed
      let parsed2 :=
        if parsed1.year = none then
          parsed1.withYear (infer_year parsed1.month now_month now_year)
        else parsed1
      match parsed_try_into parsed2 with
      | some dt => .ok dt
      | none => .error "invalid calendar date"

/-- Embedding of `time::OffsetDateTime`: a primitive date-time together
with its UTC offset in seconds. -/
structure OffsetDateTime where
  date_time : PrimitiveDateTime
  offset_seconds : Int
  deriving DecidableEq, Repr

/-- Embedding of `PrimitiveDateTime::assume_utc`. -/
def PrimitiveDateTime.assume_utc (dt : PrimitiveDateTime) : OffsetDateTime :=
  ⟨dt, 0⟩

/-- Embedding of `StrptimeParser::parse_date_time`
(date_time_format.rs:160-168): the offset-aware path delegates to the
external offset-aware parser (passed in as `external_offset_parse`, per the
§6 collaborator contract) exactly when the offset-expected flag is set;
otherwise the naive path parses a primitive date-time and assumes UTC. -/
def StrptimeParser.parse_date_time
    (external_offset_parse : String → List OwnedFormatItem → Except String OffsetDateTime)
    (self : StrptimeParser) (date_time_str : String)
    (now_month : Month) (now_year : Int) : Except String OffsetDateTime :=
  if self.with_timezone then
    external_offset_parse date_time_str self.items
  else
    (self.parse_primitive_date_time date_time_str now_month now_year).map
      PrimitiveDateTime.assume_utc

/-- Embedding of `DateTimeInputFormat` (date_time_format.rs:244-252). -/
inductive DateTimeInputFormat where
  | iso8601
  | rfc2822
  | rfc3339
  | strptime (p : StrptimeParser)
  | timestamp
  deriving DecidableEq, Repr

/-- Embedding of `DateTimeInputFormat::as_str`
(date_time_format.rs:255-263); `Serialize` emits exactly this string. -/
def DateTimeInputFormat.as_str : DateTimeInputFormat → String
  | .iso8601 => "iso8601"
  | .rfc2822 => "rfc2822"
  | .rfc3339 => "rfc3339"
  | .strptime p => p.strptime_format
  | .timestamp => "unix_timestamp"

/-- Embedding of `DateTimeInputFormat::from_str`
(date_time_format.rs:272-293). -/
def DateTimeInputFormat.from_str (date_time_format_str : String) :
    Except String DateTimeInputFormat :=
  let lower := rustLowercase date_time_format_str
  if lower = "iso8601" then .ok .iso8601
  else if lower = "rfc2822" then .ok .rfc2822
  else if lower = "rfc3339" then .ok .rfc3339
  else if lower = "unix_timestamp" then .ok .timestamp
  else if is_strftime_formatting date_time_format_str = false then
    .error ("unknown input format: `" ++ date_time_format_str ++
      "`. a custom date time format must contain at least one `strftime` special characters")
  else
    (StrptimeParser.from_strptime date_time_format_str).map
      DateTimeInputFormat.strptime

/-- Embedding of `DateTimeOutputFormat` (date_time_format.rs:312-323). -/
inductive DateTimeOutputFormat where
  | iso8601
  | rfc2822
  | rfc3339
  | strptime (p : StrptimeParser)
  | timestamp_secs
  | timestamp_millis
  | timestamp_micros
  | timestamp_nanos
  deriving DecidableEq, Repr

/-- Embedding of `DateTimeOutputFormat::as_str`
(date_time_format.rs:326-337); `Serialize` emits exactly this string. -/
def DateTimeOutputFormat.as_str : DateTimeOutputFormat → String
  | .iso8601 => "iso8601"
  | .rfc2822 => "rfc2822"
  | .rfc3339 => "rfc3339"
  | .strptime p => p.strptime_format
  | .timestamp_secs => "unix_timestamp_secs"
  | .timestamp_millis => "unix_timestamp_millis"
  | .timestamp_micros => "unix_timestamp_micros"
  | .timestamp_nanos => "unix_timestamp_nanos"

/-- Embedding of `DateTimeOutputFormat::from_str`
(date_time_format.rs:374-395). -/
def DateTimeOutputFormat.from_str (date_time_format_str : String) :
    Except String DateTimeOutputFormat :=
  let lower := rustLowercase date_time_format_str
  if lower = "iso8601" then .ok .iso8601
  else if lower = "rfc2822" then .ok .rfc2822
  else if lower = "rfc3339" then .ok .rfc3339
  else if lower = "unix_timestamp_secs" then .ok .timestamp_secs
  else if lower = "unix_timestamp_millis" then .ok .timestamp_millis
  else if lower = "unix_timestamp_micros" then .ok .timestamp_micros
  else if lower = "unix_timestamp_nanos" then .ok .timestamp_nanos
  else if is_strftime_formatting date_time_format_str = false then
    .error ("unknown output format: `" ++ date_time_format_str ++
      "`. a custom date time format must contain at least one `strftime` special characters")
  else
    (StrptimeParser.from_strptime date_time_format_str).map
      DateTimeOutputFormat.strptime

/-- Embedding of the `PartialEq` impl for `StrptimeParser`
(date_time_format.rs:205-209): equality is by pattern string alone. -/
def StrptimeParser.eq (a b : StrptimeParser) : Bool :=
  a.strptime_format == b.strptime_format

/-- Embedding of the `Hash` impl for `StrptimeParser`
(date_time_format.rs:222-226): only the pattern string is fed to the
hasher, modelled as an arbitrary function of the hashed data. -/
def StrptimeParser.hashWith (h : String → Nat) (a : StrptimeParser) : Nat :=
  h a.strptime_format

/-- The derived `PartialEq` of `DateTimeInputFormat`: same constructor, and
for the `Strptime` arm the `StrptimeParser` equality. -/
def DateTimeInputFormat.eq : DateTimeInputFormat → DateTimeInputFormat → Bool
  | .iso8601, .iso8601 => true
  | .rfc2822, .rfc2822 => true
  | .rfc3339, .rfc3339 => true
  | .timestamp, .timestamp => true
  | .strptime a, .strptime b => a.eq b
  | _, _ => false

/-- The derived `PartialEq` of `DateTimeOutputFormat`. -/
def DateTimeOutputFormat.eq : DateTimeOutputFormat → DateTimeOutputFormat → Bool
  | .iso8601, .iso8601 => true
  | .rfc2822, .rfc2822 => true
  | .rfc3339, .rfc3339 => true
  | .timestamp_secs, .timestamp_secs => true
  | .timestamp_millis, .timestamp_millis => true
  | .timestamp_micros, .timestamp_micros => true
  | .timestamp_nanos, .timestamp_nanos => true
  | .strptime a, .strptime b => a.eq b
  | _, _ => false

/-- Embedding of `TantivyDateTime` (tantivy's `DateTime`): a UTC timestamp
in nanoseconds. -/
structure TantivyDateTime where
  timestamp_nanos : Int
  deriving DecidableEq, Repr

/-- Embedding of `DateTime::into_timestamp_secs` (truncating division, as in Rust). -/
def TantivyDateTime.into_timestamp_secs (d : TantivyDateTime) : Int :=
  d.timestamp_nanos.tdiv 1000000000

def TantivyDateTime.into_timestamp_millis (d : TantivyDateTime) : Int :=
  d.timestamp_nanos.tdiv 1000000

def TantivyDateTime.into_timestamp_micros (d : TantivyDateTime) : Int :=
  d.timestamp_nanos.tdiv 1000

def TantivyDateTime.into_timestamp_nanos (d : TantivyDateTime) : Int :=
  d.timestamp_nanos

/-- A JSON value as produced by `format_to_json`: a string or an integer
number. -/
inductive JsonValue where
  | str (s : String)
  | num (n : Int)
  deriving DecidableEq, Repr

/-- The external string-rendering primitives used by the string branches of
`format_to_json` (`OffsetDateTime::format` with the well-known formats and
with a compiled instruction sequence) — abstract, per the §6 collaborator
contract. -/
structure RenderPrimitives where
  rfc3339 : TantivyDateTime → Except String String
  iso8601 : TantivyDateTime → Except String String
  rfc2822 : TantivyDateTime → Except String String
  strptime : List OwnedFormatItem → TantivyDateTime → Except String String

/-- Embedding of `DateTimeOutputFormat::format_to_json`
(date_time_format.rs:339-362): the named standards and custom patterns
render to a JSON string through the external formatter (and may fail); the
four raw-timestamp variants always produce a JSON integer. -/
def DateTimeOutputFormat.format_to_json (render : RenderPrimitives)
    (self : DateTimeOutputFormat) (date_time : TantivyDateTime) :
    Except String JsonValue :=
  match self with
  | .rfc3339 => (render.rfc3339 date_time).map JsonValue.str
  | .iso8601 => (render.iso8601 date_time).map JsonValue.str
  | .rfc2822 => (render.rfc2822 date_time).map JsonValue.str
  | .strptime p => (render.strptime p.items date_time).map JsonValue.str
  | .timestamp_secs => .ok (.num date_time.into_timestamp_secs)
  | .timestamp_millis => .ok (.num date_time.into_timestamp_millis)
  | .timestamp_micros => .ok (.num date_time.into_timestamp_micros)
  | .timestamp_nanos => .ok (.num date_time.into_timestamp_nanos)

theorem startsWithList_length {p s : List Char}
    (h : startsWithList p s = true) : p.length ≤ s.length := by
  induction p generalizing s with
  | nil => simp
  | cons a ps ih =>
    cases s with
    | nil => simp [startsWithList] at h
    | cons b ss =>
      simp only [startsWithList, Bool.and_eq_true] at h
      simpa using Nat.succ_le_succ (ih h.2)

theorem splitQuoted_length :
    ∀ {l inner rem : List Char}, splitQuoted l = some (inner, rem) →
      l.length = inner.length + rem.length + 1 := by
  intro l
  induction l with
  | nil => intro inner rem h; simp [splitQuoted] at h
  | cons c rest ih =>
    intro inner rem h
    by_cases hc : c = quoteChar
    · simp [splitQuoted, hc] at h
      obtain ⟨h1, h2⟩ := h
      subst h1; subst h2
      simp
    · simp only [splitQuoted, if_neg hc] at h
      cases hsq : splitQuoted rest with
      | none => rw [hsq] at h; simp at h
      | some p =>
        obtain ⟨i, r⟩ := p
        rw [hsq] at h
        simp at h
        obtain ⟨h1, h2⟩ := h
        subst h1; subst h2
        have := ih hsq
        simp [this]
        omega

theorem javaDateFormatRules_pos {s : List Char} {it : Option OwnedFormatItem}
    {len : Nat} (h : javaDateFormatRules s = some (it, len)) : 1 ≤ len := by
  cases s with
  | nil => simp [javaDateFormatRules] at h
  | cons c rest =>
    simp only [javaDateFormatRules] at h
    cases hsq : splitQuoted rest with
    | none =>
      simp only [hsq] at h
      split_ifs at h <;>
        simp_all [build_year_item, build_month_item, build_day_item] <;> omega
    | some p =>
      obtain ⟨inner, rem⟩ := p
      simp only [hsq] at h
      split_ifs at h <;>
        simp_all [build_year_item, build_month_item, build_day_item] <;> omega

theorem regexTokenizerGo_fuel :
    ∀ (f₁ f₂ : Nat) (s : List Char) (pos : Nat), s.length ≤ f₁ → s.length ≤ f₂ →
      regexTokenizerGo f₁ s pos = regexTokenizerGo f₂ s pos := by
  intro f₁
  induction f₁ with
  | zero =>
    intro f₂ s pos h1 _
    have hs : s = [] := by cases s <;> simp_all
    subst hs
    cases f₂ <;> rfl
  | succ f ih =>
    intro f₂ s pos h1 h2
    cases s with
    | nil => cases f₂ <;> rfl
    | cons c rest =>
      obtain ⟨g, rfl⟩ : ∃ g, f₂ = g + 1 := ⟨f₂ - 1, by simp at h2; omega⟩
      simp only [regexTokenizerGo]
      cases h : javaDateFormatRules (c :: rest) with
      | none => rfl
      | some p =>
        obtain ⟨item?, len⟩ := p
        have hl1 := javaDateFormatRules_pos h
        have hd : ((c :: rest).drop len).length ≤ f := by
          simp at h1 ⊢
          omega
        have hd2 : ((c :: rest).drop len).length ≤ g := by
          simp at h2 ⊢
          omega
        dsimp only
        rw [ih g _ _ hd hd2]

/-- One successful step of the tokenizer loop. -/
theorem tokenizeFrom_step {s : List Char} {item? : Option OwnedFormatItem}
    {len : Nat} (pos : Nat) (h : javaDateFormatRules s = some (item?, len)) :
    tokenizeFrom s pos =
      (tokenizeFrom (s.drop len) (pos + len)).map (fun items => item?.toList ++ items) := by
  cases s with
  | nil => simp [javaDateFormatRules] at h
  | cons c rest =>
    show regexTokenizerGo (rest.length + 1) (c :: rest) pos = _
    simp only [regexTokenizerGo, h]
    have hl1 := javaDateFormatRules_pos h
    have : ((c :: rest).drop len).length ≤ rest.length := by
      simp
      omega
    rw [regexTokenizerGo_fuel rest.length ((c :: rest).drop len).length _ _ this le_rfl]
    rfl

/-- A failing step of the tokenizer loop: no rule matches at the offset. -/
theorem tokenizeFrom_fail {s : List Char} (pos : Nat) (hne : s ≠ [])
    (h : javaDateFormatRules s = none) : tokenizeFrom s pos = .error pos := by
  cases s with
  | nil => exact absurd rfl hne
  | cons c rest =>
    show regexTokenizerGo (rest.length + 1) (c :: rest) pos = _
    simp only [regexTokenizerGo, h]

/-- C1: `infer_year` returns `this_year` when no month was parsed; otherwise
it returns `this_year - 1` exactly when the parsed month's number exceeds the
current month's number plus 3 (raw numeric comparison, no wrapping), and
`this_year` otherwise; the same month never shifts the year, and
`infer_year (some May) January 2024 = 2023`. -/
theorem infer_year_spec :
    (∀ (m : Month) (y : Int), infer_year none m y = y) ∧
    (∀ (p m : Month) (y : Int),
      (infer_year (some p) m y = y - 1 ↔ p.num > m.num + 3)) ∧
    (∀ (p m : Month) (y : Int),
      (infer_year (some p) m y = y ↔ ¬ p.num > m.num + 3)) ∧
    (∀ (m : Month) (y : Int), infer_year (some m) m y = y) ∧
    infer_year (some .may) .january 2024 = 2023 := by
  refine ⟨fun m y => rfl, fun p m y => ?_, fun p m y => ?_, fun m y => ?_, rfl⟩
  · by_cases h : p.num > m.num + 3 <;> simp [infer_year, h] <;> omega
  · by_cases h : p.num > m.num + 3 <;> simp [infer_year, h] <;> omega
  · have h : ¬ m.num > m.num + 3 := by omega
    simp [infer_year, h]

theorem startsWithList_single_false {a : Char} {l s : List Char}
    (h : startsWithList [a] s = false) : startsWithList (a :: l) s = false := by
  cases s with
  | nil => rfl
  | cons b ss =>
    simp [startsWithList] at h ⊢
    intro hab
    exact absurd hab h

theorem splitQuoted_append {inner rest : List Char} (h : quoteChar ∉ inner) :
    splitQuoted (inner ++ quoteChar :: rest) = some (inner, rest) := by
  induction inner with
  | nil => simp [splitQuoted]
  | cons c cs ih =>
    simp at h
    obtain ⟨hc, hcs⟩ := h
    have hc2 : ¬ c = quoteChar := fun h2 => hc h2.symm
    simp [splitQuoted, hc2, ih hcs]

theorem drop_after_quoted (inner rest : List Char) :
    (inner ++ quoteChar :: rest).drop (inner.length + 1) = rest := by
  induction inner with
  | nil => simp
  | cons c cs ih => simpa using ih

/-- C2 counterexample: a pattern consisting of a single `y` does not compile
to a two-digit-year instruction — no tokenizer rule matches it (the year
rule requires at least two `y`), so tokenization fails at position 0; and
the underscore, a non-alphanumeric non-bracket character, also matches no
rule (the catch-all excludes all word characters, underscore included). -/
theorem java_tokenizer_single_y_fails :
    java_tokenize ['y'] = .error 0 ∧ java_tokenize ['_'] = .error 0 :=
  ⟨rfl, rfl⟩

/-- C2 (amended): the Java-style tokenizer applies its rules in priority
order and maps: exactly two `y` to a two-digit-year instruction and exactly
four `y` to a four-digit-year instruction, a single `y` matching no rule
and failing at its position; one or two `M` to a numeric month, zero-padded
iff two characters; one or two `d` to a numeric day, zero-padded iff two
characters; a doubled quote to a literal single quote; a quoted run of
non-quote characters to its contents as a literal; and any other
non-word (non-alphanumeric, non-underscore), non-bracket character to
itself as a literal. -/
theorem java_tokenizer_rules :
    (∀ (rest : List Char) (pos : Nat),
      tokenizeFrom ('y' :: 'y' :: 'y' :: 'y' :: rest) pos =
        (tokenizeFrom rest (pos + 4)).map
          (fun items => .year .zero .full :: items)) ∧
    (∀ (rest : List Char) (pos : Nat), startsWithList ['y', 'y'] rest = false →
      tokenizeFrom ('y' :: 'y' :: rest) pos =
        (tokenizeFrom rest (pos + 2)).map
          (fun items => .year .zero .lastTwo :: items)) ∧
    (∀ (rest : List Char) (pos : Nat), startsWithList ['y'] rest = false →
      tokenizeFrom ('y' :: rest) pos = .error pos) ∧
    (∀ (rest : List Char) (pos : Nat),
      tokenizeFrom ('M' :: 'M' :: rest) pos =
        (tokenizeFrom rest (pos + 2)).map (fun items => .month .zero :: items)) ∧
    (∀ (rest : List Char) (pos : Nat), startsWithList ['M'] rest = false →
      tokenizeFrom ('M' :: rest) pos =
        (tokenizeFrom rest (pos + 1)).map (fun items => .month .none :: items)) ∧
    (∀ (rest : List Char) (pos : Nat),
      tokenizeFrom ('d' :: 'd' :: rest) pos =
        (tokenizeFrom rest (pos + 2)).map (fun items => .day .zero :: items)) ∧
    (∀ (rest : List Char) (pos : Nat), startsWithList ['d'] rest = false →
      tokenizeFrom ('d' :: rest) pos =
        (tokenizeFrom rest (pos + 1)).map (fun items => .day .none :: items)) ∧
    (∀ (rest : List Char) (pos : Nat),
      tokenizeFrom (quoteChar :: quoteChar :: rest) pos =
        (tokenizeFrom rest (pos + 2)).map
          (fun items => .literal [quoteChar] :: items)) ∧
    (∀ (inner rest : List Char) (pos : Nat), inner ≠ [] → quoteChar ∉ inner →
      tokenizeFrom (quoteChar :: (inner ++ quoteChar :: rest)) pos =
        (tokenizeFrom rest (pos + (inner.length + 2))).map
          (fun items => .literal inner :: items)) ∧
    (∀ (c : Char) (rest : List Char) (pos : Nat),
      c.isAlphanum = false → c ≠ '_' → c ≠ '[' → c ≠ ']' → c ≠ '{' →
      c ≠ '}' → c ≠ quoteChar →
      tokenizeFrom (c :: rest) pos =
        (tokenizeFrom rest (pos + 1)).map (fun items => .literal [c] :: items)) := by
  refine ⟨?_, ?_, ?_, ?_, ?_, ?_, ?_, ?_, ?_, ?_⟩
  · intro rest pos
    have h : javaDateFormatRules ('y' :: 'y' :: 'y' :: 'y' :: rest) =
        some (some (.year .zero .full), 4) := by
      simp [javaDateFormatRules, startsWithList, build_year_item]
    rw [tokenizeFrom_step pos h]
    rfl
  · intro rest pos hr
    have h : javaDateFormatRules ('y' :: 'y' :: rest) =
        some (some (.year .zero .lastTwo), 2) := by
      simp [javaDateFormatRules, startsWithList, build_year_item, hr]
    rw [tokenizeFrom_step pos h]
    rfl
  · intro rest pos hr
    have h : javaDateFormatRules ('y' :: rest) = none := by
      simp [javaDateFormatRules, hr, startsWithList_single_false hr]
    exact tokenizeFrom_fail pos (by simp) h
  · intro rest pos
    have h : javaDateFormatRules ('M' :: 'M' :: rest) =
        some (some (.month .zero), 2) := by
      simp [javaDateFormatRules, startsWithList, build_month_item]
    rw [tokenizeFrom_step pos h]
    rfl
  · intro rest pos hr
    have h : javaDateFormatRules ('M' :: rest) = some (some (.month .none), 1) := by
      simp [javaDateFormatRules, hr, build_month_item]
    rw [tokenizeFrom_step pos h]
    rfl
  · intro rest pos
    have h : javaDateFormatRules ('d' :: 'd' :: rest) =
        some (some (.day .zero), 2) := by
      simp [javaDateFormatRules, startsWithList, build_day_item]
    rw [tokenizeFrom_step pos h]
    rfl
  · intro rest pos hr
    have h : javaDateFormatRules ('d' :: rest) = some (some (.day .none), 1) := by
      simp [javaDateFormatRules, hr, build_day_item]
    rw [tokenizeFrom_step pos h]
    rfl
  · intro rest pos
    have h : javaDateFormatRules (quoteChar :: quoteChar :: rest) =
        some (some (.literal [quoteChar]), 2) := by
      simp [javaDateFormatRules, startsWithList, quoteChar]
    rw [tokenizeFrom_step pos h]
    rfl
  · intro inner rest pos hne hq
    have hstart : startsWithList [quoteChar] (inner ++ quoteChar :: rest) = false := by
      cases inner with
      | nil => exact absurd rfl hne
      | cons c cs =>
        simp at hq
        simp [startsWithList]
        exact hq.1
    have hqy : ¬ quoteChar = 'y' := by decide
    have hqM : ¬ quoteChar = 'M' := by decide
    have hqd : ¬ quoteChar = 'd' := by decide
    have h : javaDateFormatRules (quoteChar :: (inner ++ quoteChar :: rest)) =
        some (some (.literal inner), inner.length + 2) := by
      simp [javaDateFormatRules, hqy, hqM, hqd, hstart, splitQuoted_append hq]
    rw [tokenizeFrom_step pos h]
    have hdrop : (quoteChar :: (inner ++ quoteChar :: rest)).drop (inner.length + 2) = rest := by
      have := drop_after_quoted inner rest
      simpa [List.drop_succ_cons] using this
    rw [hdrop]
    rfl
  · intro c rest pos halnum hu hlb hrb hlc hrc hq
    have hy : ¬ c = 'y' := by
      intro h; subst h; simp [Char.isAlphanum] at halnum
    have hM : ¬ c = 'M' := by
      intro h; subst h; simp [Char.isAlphanum] at halnum
    have hd : ¬ c = 'd' := by
      intro h; subst h; simp [Char.isAlphanum] at halnum
    have h : javaDateFormatRules (c :: rest) = some (some (.literal [c]), 1) := by
      simp [javaDateFormatRules, hy, hM, hd, hq, halnum, hu, hlb, hrb, hlc, hrc]
    rw [tokenizeFrom_step pos h]
    rfl

/-- Witness for C2 (amended): the hypothesis-bearing conjuncts instantiated
at concrete inputs. -/
theorem java_tokenizer_rules_witness :
    (tokenizeFrom ['y', 'y'] 0 =
      (tokenizeFrom [] 2).map (fun items => .year .zero .lastTwo :: items)) ∧
    (tokenizeFrom ['y'] 0 = .error 0) ∧
    (tokenizeFrom ['M', '-'] 3 =
      (tokenizeFrom ['-'] 4).map (fun items => .month .none :: items)) ∧
    (tokenizeFrom ['d', '-'] 0 =
      (tokenizeFrom ['-'] 1).map (fun items => .day .none :: items)) ∧
    (tokenizeFrom (quoteChar :: (['T'] ++ quoteChar :: [])) 0 =
      (tokenizeFrom [] 3).map (fun items => .literal ['T'] :: items)) ∧
    (tokenizeFrom ['-', 'd'] 0 =
      (tokenizeFrom ['d'] 1).map (fun items => .literal ['-'] :: items)) :=
  ⟨java_tokenizer_rules.2.1 [] 0 (by decide),
   java_tokenizer_rules.2.2.1 [] 0 (by decide),
   java_tokenizer_rules.2.2.2.2.1 ['-'] 3 (by decide),
   java_tokenizer_rules.2.2.2.2.2.2.1 ['-'] 0 (by decide),
   java_tokenizer_rules.2.2.2.2.2.2.2.2.1 ['T'] [] 0 (by decide) (by decide),
   java_tokenizer_rules.2.2.2.2.2.2.2.2.2 '-' ['d'] 0 (by decide) (by decide)
     (by decide) (by decide) (by decide) (by decide) (by decide)⟩

/-- C3: the offset-expected flag of a strptime-compiled pattern is true iff
the lowercased pattern contains `%z`; a Java-compiled pattern never expects
an offset; and `parse_date_time` delegates to the external offset-aware
parser exactly when the flag is set, otherwise taking the naive path that
assumes UTC. -/
theorem with_timezone_flag_spec :
    (∀ (pat : String) (q : StrptimeParser),
      StrptimeParser.from_strptime pat = .ok q →
      q.with_timezone = containsSub ['%', 'z'] (rustLowercase pat).data) ∧
    (∀ (pat : String) (q : StrptimeParser),
      StrptimeParser.from_java_datetime_format pat = .ok q →
      q.with_timezone = false) ∧
    (∀ (ext : String → List OwnedFormatItem → Except String OffsetDateTime)
        (q : StrptimeParser) (s : String) (nM : Month) (nY : Int),
      q.with_timezone = true →
      StrptimeParser.parse_date_time ext q s nM nY = ext s q.items) ∧
    (∀ (ext : String → List OwnedFormatItem → Except String OffsetDateTime)
        (q : StrptimeParser) (s : String) (nM : Month) (nY : Int),
      q.with_timezone = false →
      StrptimeParser.parse_date_time ext q s nM nY =
        (q.parse_primitive_date_time s nM nY).map PrimitiveDateTime.assume_utc) := by
  refine ⟨?_, ?_, ?_, ?_⟩
  · intro pat q h
    simp only [StrptimeParser.from_strptime] at h
    cases hit : strptime_items pat.data with
    | error e => simp [hit] at h
    | ok items =>
      simp only [hit] at h
      cases h
      rfl
  · intro pat q h
    simp only [StrptimeParser.from_java_datetime_format] at h
    cases hit : java_tokenize (resolve_java_datetime_format_alias pat).data with
    | error pos => simp [hit] at h
    | ok items =>
      simp only [hit] at h
      cases h
      rfl
  · intro ext q s nM nY hflag
    simp [StrptimeParser.parse_date_time, hflag]
  · intro ext q s nM nY hflag
    simp [StrptimeParser.parse_date_time, hflag]

/-- Witness for C3 at concrete patterns: `%z` sets the flag, a Java pattern
does not, and the two dispatch equations at a concrete parser. -/
theorem with_timezone_flag_spec_witness :
    ((⟨"%z", true, [.offset]⟩ : StrptimeParser).with_timezone =
      containsSub ['%', 'z'] (rustLowercase "%z").data) ∧
    ((⟨"yyyy", false, [.year .zero .full]⟩ : StrptimeParser).with_timezone = false) ∧
    (StrptimeParser.parse_date_time
      (fun _ _ => (Except.error "ext" : Except String OffsetDateTime))
      ⟨"%z", true, [.offset]⟩ "x" Month.january 2024 =
      (Except.error "ext" : Except String OffsetDateTime)) ∧
    (StrptimeParser.parse_date_time
      (fun _ _ => (Except.error "ext" : Except String OffsetDateTime))
      ⟨"%Y", false, [.year .zero .full]⟩ "x" Month.january 2024 =
      (StrptimeParser.parse_primitive_date_time ⟨"%Y", false, [.year .zero .full]⟩
        "x" Month.january 2024).map PrimitiveDateTime.assume_utc) :=
  ⟨with_timezone_flag_spec.1 "%z" ⟨"%z", true, [.offset]⟩ rfl,
   with_timezone_flag_spec.2.1 "yyyy" ⟨"yyyy", false, [.year .zero .full]⟩ rfl,
   with_timezone_flag_spec.2.2.1
     (fun _ _ => (Except.error "ext" : Except String OffsetDateTime))
     ⟨"%z", true, [.offset]⟩ "x" Month.january 2024 rfl,
   with_timezone_flag_spec.2.2.2
     (fun _ _ => (Except.error "ext" : Except String OffsetDateTime))
     ⟨"%Y", false, [.year .zero .full]⟩ "x" Month.january 2024 rfl⟩

/-- C4: on the naive path, leftover unconsumed characters after all
instructions matched make parsing fail with the "does not match" error
naming both the input text and the original pattern string; in particular
`"2021-01-01TABC"` against compiled `"%Y-%m-%d"`. -/
theorem leftover_mismatch_spec :
    (∀ (q : StrptimeParser) (s : String) (nM : Month) (nY : Int)
        (parsed : Parsed) (rest : List Char),
      parse_items Parsed.init s.data q.items = some (parsed, rest) → rest ≠ [] →
      q.parse_primitive_date_time s nM nY =
        .error (mismatch_error s q.strptime_format)) ∧
    (∀ q : StrptimeParser, StrptimeParser.from_strptime "%Y-%m-%d" = .ok q →
      ∀ (nM : Month) (nY : Int),
        q.parse_primitive_date_time "2021-01-01TABC" nM nY =
          .error (mismatch_error "2021-01-01TABC" "%Y-%m-%d")) := by
  constructor
  · intro q s nM nY parsed rest hparse hne
    simp only [StrptimeParser.parse_primitive_date_time, hparse]
    simp [hne]
  · intro q h nM nY
    cases h
    rfl

/-- Witness for C4 at the concrete pattern and input. -/
theorem leftover_mismatch_spec_witness :
    StrptimeParser.parse_primitive_date_time
        ⟨"%Y-%m-%d", false,
          [.year .zero .full, .literal ['-'], .month .zero, .literal ['-'],
           .day .zero]⟩ "2021-01-01TABC" .january 2024 =
      .error (mismatch_error "2021-01-01TABC" "%Y-%m-%d") :=
  leftover_mismatch_spec.1
    ⟨"%Y-%m-%d", false,
      [.year .zero .full, .literal ['-'], .month .zero, .literal ['-'],
       .day .zero]⟩ "2021-01-01TABC" .january 2024
    ⟨some 2021, none, some .january, some 1, none, none, none, none, none, none⟩
    ['T', 'A', 'B', 'C'] rfl (by simp)

theorem parse_match_ok {x : Option PrimitiveDateTime} {dt : PrimitiveDateTime}
    (h : (match x with
          | some d => Except.ok d
          | none => Except.error "invalid calendar date") =
        (Except.ok dt : Except String PrimitiveDateTime)) : x = some dt := by
  cases x <;> simp_all

theorem parsed_try_into_fields {p : Parsed} {dt : PrimitiveDateTime}
    (h : parsed_try_into p = some dt) :
    p.hour_24 = some dt.hour ∧ p.minute = some dt.minute ∧
      p.second = some dt.second := by
  cases hy : p.year <;> cases hm : p.month <;> cases hd : p.day <;>
    cases hh : p.hour_24 <;> cases hmi : p.minute <;> cases hs : p.second <;>
      simp only [parsed_try_into, hy, hm, hd, hh, hmi, hs] at h <;>
      try exact Option.noConfusion h
  split at h
  · cases h
    exact ⟨rfl, rfl, rfl⟩
  · exact Option.noConfusion h

/-- C5: on the naive path, when the input supplied no 24-hour field and no
complete 12-hour-plus-meridiem pair, hour, minute and second are defaulted
to zero, so a successful parse is midnight on the parsed date; in
particular `"2021-01-01"` with compiled `"%Y-%m-%d"` is midnight UTC on
2021-01-01. -/
theorem midnight_default_spec :
    (∀ (q : StrptimeParser) (s : String) (nM : Month) (nY : Int)
        (parsed : Parsed) (dt : PrimitiveDateTime),
      parse_items Parsed.init s.data q.items = some (parsed, []) →
      parsed.hour_24 = none →
      ¬(parsed.hour_12.isSome ∧ parsed.hour_12_is_pm.isSome) →
      q.parse_primitive_date_time s nM nY = .ok dt →
      dt.hour = 0 ∧ dt.minute = 0 ∧ dt.second = 0) ∧
    (∀ (ext : String → List OwnedFormatItem → Except String OffsetDateTime)
        (q : StrptimeParser), StrptimeParser.from_strptime "%Y-%m-%d" = .ok q →
      ∀ (nM : Month) (nY : Int),
        StrptimeParser.parse_date_time ext q "2021-01-01" nM nY =
          .ok ⟨⟨2021, .january, 1, 0, 0, 0⟩, 0⟩) := by
  constructor
  · intro q s nM nY parsed dt hparse hh24 h12 hok
    simp only [StrptimeParser.parse_primitive_date_time, hparse] at hok
    rw [if_neg (by simp : ¬(([] : List Char) ≠ []))] at hok
    have hcond : parsed.hour_24 = none ∧
        ¬(parsed.hour_12.isSome ∧ parsed.hour_12_is_pm.isSome) := ⟨hh24, h12⟩
    rw [if_pos hcond] at hok
    simp only [Parsed.withHour24, Parsed.withMinute, Parsed.withSecond,
      Parsed.withYear] at hok
    by_cases hyq : parsed.year = none
    · simp only [hyq, if_true] at hok
      have hx := parse_match_ok hok
      obtain ⟨e1, e2, e3⟩ := parsed_try_into_fields hx
      simp at e1 e2 e3
      exact ⟨e1.symm, e2.symm, e3.symm⟩
    · rw [if_neg hyq] at hok
      have hx := parse_match_ok hok
      obtain ⟨e1, e2, e3⟩ := parsed_try_into_fields hx
      simp at e1 e2 e3
      exact ⟨e1.symm, e2.symm, e3.symm⟩
  · intro ext q h nM nY
    cases h
    rfl

/-- Witness for C5 at the concrete pattern and input. -/
theorem midnight_default_spec_witness :
    ((⟨2021, Month.january, 1, 0, 0, 0⟩ : PrimitiveDateTime).hour = 0 ∧
      (⟨2021, Month.january, 1, 0, 0, 0⟩ : PrimitiveDateTime).minute = 0 ∧
      (⟨2021, Month.january, 1, 0, 0, 0⟩ : PrimitiveDateTime).second = 0) ∧
    StrptimeParser.parse_date_time
        (fun _ _ => (Except.error "ext" : Except String OffsetDateTime))
        ⟨"%Y-%m-%d", false,
          [.year .zero .full, .literal ['-'], .month .zero, .literal ['-'],
           .day .zero]⟩ "2021-01-01" Month.january 2024 =
      .ok ⟨⟨2021, Month.january, 1, 0, 0, 0⟩, 0⟩ :=
  ⟨midnight_default_spec.1
      ⟨"%Y-%m-%d", false,
        [.year .zero .full, .literal ['-'], .month .zero, .literal ['-'],
         .day .zero]⟩ "2021-01-01" Month.january 2024
      ⟨some 2021, none, some .january, some 1, none, none, none, none, none, none⟩
      ⟨2021, Month.january, 1, 0, 0, 0⟩ rfl rfl (by simp) rfl,
   midnight_default_spec.2
     (fun _ _ => (Except.error "ext" : Except String OffsetDateTime))
     ⟨"%Y-%m-%d", false,
       [.year .zero .full, .literal ['-'], .month .zero, .literal ['-'],
        .day .zero]⟩ rfl Month.january 2024⟩

/-- C6: a string that matches no short-name table entry after lowercasing
and contains none of the 36 strftime markers makes `from_str` fail with the
"unknown format" error naming the string — no pattern compilation is
attempted; in particular `"unix_timestamp_seconds"` and `"test%"`. -/
theorem unknown_format_spec :
    (∀ s : String, is_strftime_formatting s = false →
      rustLowercase s ≠ "iso8601" → rustLowercase s ≠ "rfc2822" →
      rustLowercase s ≠ "rfc3339" → rustLowercase s ≠ "unix_timestamp" →
      DateTimeInputFormat.from_str s =
        .error ("unknown input format: `" ++ s ++
          "`. a custom date time format must contain at least one `strftime` special characters")) ∧
    (∀ s : String, is_strftime_formatting s = false →
      rustLowercase s ≠ "iso8601" → rustLowercase s ≠ "rfc2822" →
      rustLowercase s ≠ "rfc3339" → rustLowercase s ≠ "unix_timestamp_secs" →
      rustLowercase s ≠ "unix_timestamp_millis" →
      rustLowercase s ≠ "unix_timestamp_micros" →
      rustLowercase s ≠ "unix_timestamp_nanos" →
      DateTimeOutputFormat.from_str s =
        .error ("unknown output format: `" ++ s ++
          "`. a custom date time format must contain at least one `strftime` special characters")) ∧
    DateTimeInputFormat.from_str "unix_timestamp_seconds" =
      .error "unknown input format: `unix_timestamp_seconds`. a custom date time format must contain at least one `strftime` special characters" ∧
    DateTimeInputFormat.from_str "test%" =
      .error "unknown input format: `test%`. a custom date time format must contain at least one `strftime` special characters" ∧
    DateTimeOutputFormat.from_str "unix_timestamp_seconds" =
      .error "unknown output format: `unix_timestamp_seconds`. a custom date time format must contain at least one `strftime` special characters" ∧
    DateTimeOutputFormat.from_str "test%" =
      .error "unknown output format: `test%`. a custom date time format must contain at least one `strftime` special characters" := by
  refine ⟨?_, ?_, rfl, rfl, rfl, rfl⟩
  · intro s hm h1 h2 h3 h4
    simp [DateTimeInputFormat.from_str, h1, h2, h3, h4, hm]
  · intro s hm h1 h2 h3 h4 h5 h6 h7
    simp [DateTimeOutputFormat.from_str, h1, h2, h3, h4, h5, h6, h7, hm]

/-- Witness for C6: the quantified conjuncts instantiated at
`"unix_timestamp_seconds"`. -/
theorem unknown_format_spec_witness :
    DateTimeInputFormat.from_str "unix_timestamp_seconds" =
      .error ("unknown input format: `" ++ "unix_timestamp_seconds" ++
        "`. a custom date time format must contain at least one `strftime` special characters") ∧
    DateTimeOutputFormat.from_str "unix_timestamp_seconds" =
      .error ("unknown output format: `" ++ "unix_timestamp_seconds" ++
        "`. a custom date time format must contain at least one `strftime` special characters") :=
  ⟨unknown_format_spec.1 "unix_timestamp_seconds" (by decide) (by decide)
      (by decide) (by decide) (by decide),
   unknown_format_spec.2.1 "unix_timestamp_seconds" (by decide) (by decide)
      (by decide) (by decide) (by decide) (by decide) (by decide) (by decide)⟩

/-- C7: every named (non-custom) variant round-trips through its canonical
short name, short-name matching is case-insensitive, and serialization
(`as_str`) emits the fixed lower-case canonical names of the table. -/
theorem short_name_round_trip :
    (DateTimeInputFormat.from_str (DateTimeInputFormat.as_str .iso8601) = .ok .iso8601 ∧
     DateTimeInputFormat.from_str (DateTimeInputFormat.as_str .rfc2822) = .ok .rfc2822 ∧
     DateTimeInputFormat.from_str (DateTimeInputFormat.as_str .rfc3339) = .ok .rfc3339 ∧
     DateTimeInputFormat.from_str (DateTimeInputFormat.as_str .timestamp) = .ok .timestamp) ∧
    (DateTimeOutputFormat.from_str (DateTimeOutputFormat.as_str .iso8601) = .ok .iso8601 ∧
     DateTimeOutputFormat.from_str (DateTimeOutputFormat.as_str .rfc2822) = .ok .rfc2822 ∧
     DateTimeOutputFormat.from_str (DateTimeOutputFormat.as_str .rfc3339) = .ok .rfc3339 ∧
     DateTimeOutputFormat.from_str (DateTimeOutputFormat.as_str .timestamp_secs) = .ok .timestamp_secs ∧
     DateTimeOutputFormat.from_str (DateTimeOutputFormat.as_str .timestamp_millis) = .ok .timestamp_millis ∧
     DateTimeOutputFormat.from_str (DateTimeOutputFormat.as_str .timestamp_micros) = .ok .timestamp_micros ∧
     DateTimeOutputFormat.from_str (DateTimeOutputFormat.as_str .timestamp_nanos) = .ok .timestamp_nanos) ∧
    (DateTimeInputFormat.from_str "ISO8601" = .ok .iso8601 ∧
     DateTimeInputFormat.from_str "iso8601" = .ok .iso8601 ∧
     DateTimeOutputFormat.from_str "ISO8601" = .ok .iso8601 ∧
     DateTimeOutputFormat.from_str "iso8601" = .ok .iso8601) ∧
    (DateTimeInputFormat.as_str .iso8601 = "iso8601" ∧
     DateTimeInputFormat.as_str .rfc2822 = "rfc2822" ∧
     DateTimeInputFormat.as_str .rfc3339 = "rfc3339" ∧
     DateTimeInputFormat.as_str .timestamp = "unix_timestamp" ∧
     DateTimeOutputFormat.as_str .iso8601 = "iso8601" ∧
     DateTimeOutputFormat.as_str .rfc2822 = "rfc2822" ∧
     DateTimeOutputFormat.as_str .rfc3339 = "rfc3339" ∧
     DateTimeOutputFormat.as_str .timestamp_secs = "unix_timestamp_secs" ∧
     DateTimeOutputFormat.as_str .timestamp_millis = "unix_timestamp_millis" ∧
     DateTimeOutputFormat.as_str .timestamp_micros = "unix_timestamp_micros" ∧
     DateTimeOutputFormat.as_str .timestamp_nanos = "unix_timestamp_nanos") :=
  ⟨⟨rfl, rfl, rfl, rfl⟩,
   ⟨rfl, rfl, rfl, rfl, rfl, rfl, rfl⟩,
   ⟨rfl, rfl, rfl, rfl⟩,
   ⟨rfl, rfl, rfl, rfl, rfl, rfl, rfl, rfl, rfl, rfl, rfl⟩⟩

/-- C8: equality of compiled patterns is by pattern string alone — two
`StrptimeParser` values (and hence two `Strptime` format variants) are
equal iff their stored pattern strings are equal, whatever their
instruction sequences, and equal parsers hash identically (the hasher only
sees the pattern string). -/
theorem eq_hash_by_pattern_string :
    (∀ a b : StrptimeParser,
      StrptimeParser.eq a b = true ↔ a.strptime_format = b.strptime_format) ∧
    (∀ (h : String → Nat) (a b : StrptimeParser),
      StrptimeParser.eq a b = true →
      StrptimeParser.hashWith h a = StrptimeParser.hashWith h b) ∧
    (∀ p q : StrptimeParser,
      DateTimeInputFormat.eq (.strptime p) (.strptime q) = true ↔
        p.strptime_format = q.strptime_format) ∧
    (∀ p q : StrptimeParser,
      DateTimeOutputFormat.eq (.strptime p) (.strptime q) = true ↔
        p.strptime_format = q.strptime_format) ∧
    StrptimeParser.eq ⟨"%Y", false, []⟩ ⟨"%Y", true, [.offset]⟩ = true := by
  refine ⟨?_, ?_, ?_, ?_, by decide⟩
  · intro a b
    simp [StrptimeParser.eq]
  · intro h a b hab
    simp [StrptimeParser.eq] at hab
    simp [StrptimeParser.hashWith, hab]
  · intro p q
    simp [DateTimeInputFormat.eq, StrptimeParser.eq]
  · intro p q
    simp [DateTimeOutputFormat.eq, StrptimeParser.eq]

/-- Witness for C8: the hash implication applied at a concrete hasher and
concrete parsers that differ in everything but the pattern string. -/
theorem eq_hash_by_pattern_string_witness :
    StrptimeParser.hashWith String.length ⟨"%Y", false, []⟩ =
      StrptimeParser.hashWith String.length ⟨"%Y", true, [.offset]⟩ :=
  eq_hash_by_pattern_string.2.1 String.length ⟨"%Y", false, []⟩
    ⟨"%Y", true, [.offset]⟩ (by decide)

/-- C9: the aliases `date_optional_time`, `strict_date_optional_time` and
`strict_date_optional_time_nanos` resolve to patterns whose unquoted `H`
is reached at byte offset 13, where no tokenizer rule matches, so
`from_java_datetime_format` fails with the position-reporting error; only
`basic_date` (resolved to `yyyyMMdd`) compiles, storing the resolved
pattern string, so it equals the parser compiled directly from
`yyyyMMdd`. -/
theorem java_alias_compilation :
    StrptimeParser.from_java_datetime_format "date_optional_time" =
      .error "failed to parse date format `date_optional_time`. Pattern at pos 13 is not recognized." ∧
    StrptimeParser.from_java_datetime_format "strict_date_optional_time" =
      .error "failed to parse date format `strict_date_optional_time`. Pattern at pos 13 is not recognized." ∧
    StrptimeParser.from_java_datetime_format "strict_date_optional_time_nanos" =
      .error "failed to parse date format `strict_date_optional_time_nanos`. Pattern at pos 13 is not recognized." ∧
    StrptimeParser.from_java_datetime_format "basic_date" =
      .ok ⟨"yyyyMMdd", false, [.year .zero .full, .month .zero, .day .zero]⟩ ∧
    StrptimeParser.from_java_datetime_format "basic_date" =
      StrptimeParser.from_java_datetime_format "yyyyMMdd" :=
  ⟨rfl, rfl, rfl, rfl, rfl⟩

/-- C10: for every datetime value, `format_to_json` on each of the four
raw-timestamp output variants is `Ok` with a JSON integer number, whatever
the external string-rendering primitives do — the error branch is
unreachable for these variants. -/
theorem timestamp_outputs_always_number :
    ∀ (render : RenderPrimitives) (d : TantivyDateTime),
      DateTimeOutputFormat.format_to_json render .timestamp_secs d =
        .ok (.num d.into_timestamp_secs) ∧
      DateTimeOutputFormat.format_to_json render .timestamp_millis d =
        .ok (.num d.into_timestamp_millis) ∧
      DateTimeOutputFormat.format_to_json render .timestamp_micros d =
        .ok (.num d.into_timestamp_micros) ∧
      DateTimeOutputFormat.format_to_json render .timestamp_nanos d =
        .ok (.num d.into_timestamp_nanos) :=
  fun _ _ => ⟨rfl, rfl, rfl, rfl⟩

end DateTimeFormat
